import Mathlib

/-!
Shallow embedding of the RAG (retrieval-augmented generation) service and the
todo page of the productivity web application, together with proofs of the
specification claims about them.

The embedded code:
  * `SupabaseRAGService` (generateEmbedding, simpleHash, cosineSimilarity,
    searchDocuments, generateResponse, processQuery, storeDocument);
  * `BrowserVectorStore` (store, cosineSimilarity) from the browser RAG service;
  * the todo page's `deleteTodo` handler.

JavaScript numbers are modelled as real numbers (`ℝ`); the 32-bit truncation
in the rolling hash is modelled exactly on `ℤ`.  Remote calls (database reads
and writes, the generative-model call) are modelled by passing their outcomes
as explicit arguments; console logging and persistence side effects are not
modelled.
-/

namespace RagApp

/-- JavaScript ToInt32: reduce an integer to the signed 32-bit range, as the
`hash & hash` and `hash << 5` operations do in `simpleHash`. -/
def toInt32 (z : ℤ) : ℤ := (z + 2 ^ 31) % 2 ^ 32 - 2 ^ 31

/-- One iteration of the rolling hash loop of `simpleHash`:
`hash = ((hash << 5) - hash) + char; hash = hash & hash`.  The shift converts
its operand to 32 bits, and `hash & hash` truncates the result to 32 bits. -/
def hashStep (h : ℤ) (c : ℕ) : ℤ := toInt32 (toInt32 (h * 32) - h + (c : ℤ))

/-- The character codes of a string, as read by `text.charCodeAt(i)` in the
hash loop of `simpleHash`. -/
def charCodes (s : String) : List ℕ := s.toList.map Char.toNat

/-- The integer value of the rolling hash accumulator of `simpleHash` after
the loop over all characters, starting from 0. -/
def rawHash (s : String) : ℤ := (charCodes s).foldl hashStep 0

/-- `SupabaseRAGService.simpleHash` / `RAGService.simpleHash`:
`Math.abs(hash) / 1000000` applied to the rolling hash. -/
noncomputable def simpleHash (s : String) : ℝ := ((rawHash s).natAbs : ℝ) / 1000000

/-- `SupabaseRAGService.generateEmbedding` / `RAGService.generateEmbedding`:
`Array.from({length: 384}, (_, i) => Math.sin(hash * (i + 1)) * Math.cos(hash * (i + 2)))`
where `hash = simpleHash(text)`.  (The catch branch that produces a random
fallback vector is unreachable for this pure computation.) -/
noncomputable def generateEmbedding (s : String) : List ℝ :=
  (List.range 384).map fun i : ℕ =>
    Real.sin (simpleHash s * ((i : ℝ) + 1)) * Real.cos (simpleHash s * ((i : ℝ) + 2))

/-- Sum of squares of a vector: `a.reduce((sum, val) => sum + val * val, 0)`. -/
def sumSq (a : List ℝ) : ℝ := (a.map fun v => v * v).sum

/-- `Math.sqrt` of the sum of squares, the `magnitudeA` / `magnitudeB`
computation of both `cosineSimilarity` implementations. -/
noncomputable def magnitude (a : List ℝ) : ℝ := Real.sqrt (sumSq a)

/-- The dot product `a.reduce((sum, val, i) => sum + val * (b[i] || 0), 0)`.
The sum runs over the indices of `a`; positions missing from `b` contribute
`val * 0`, which is what `List.zipWith` followed by `List.sum` computes. -/
def dotProduct (a b : List ℝ) : ℝ := (List.zipWith (fun x y => x * y) a b).sum

/-- `SupabaseRAGService.cosineSimilarity`: returns 0 when either vector is
empty, otherwise the dot product divided by the product of magnitudes. -/
noncomputable def cosineSimilarity (a b : List ℝ) : ℝ :=
  if a.length = 0 ∨ b.length = 0 then 0
  else dotProduct a b / (magnitude a * magnitude b)

/-- `BrowserVectorStore.cosineSimilarity`: the same formula without the
empty-vector guard. -/
noncomputable def cosineSimilarityBrowser (a b : List ℝ) : ℝ :=
  dotProduct a b / (magnitude a * magnitude b)

/-- The metadata object built for each search result in
`SupabaseRAGService.searchDocuments`:
`{ title: doc.title, upload_date: doc.upload_date, type: doc.file_type }`. -/
structure SRMetadata where
  title : String
  upload_date : String
  type : String

/-- The `SearchResult` interface: `{ content, score, metadata }`. -/
structure SearchResult where
  content : String
  score : ℝ
  metadata : SRMetadata

/-- A row of the `documents` table as read back by `searchDocuments`; the
`embedding` column may be null (`doc.embedding || []`). -/
structure StoredDoc where
  id : String
  title : String
  content : String
  file_path : String
  file_type : String
  upload_date : String
  embedding : Option (List ℝ)

/-- The per-document scoring step of `SupabaseRAGService.searchDocuments`:
`const embedding = doc.embedding || []; const similarity = cosineSimilarity(queryEmbedding, embedding)`
packaged with the content and metadata of the row. -/
noncomputable def scoreDoc (q : List ℝ) (doc : StoredDoc) : SearchResult :=
  { content := doc.content
    score := cosineSimilarity q (doc.embedding.getD [])
    metadata :=
      { title := doc.title, upload_date := doc.upload_date, type := doc.file_type } }

/-- The comparator `(a, b) => b.score - a.score` of `searchDocuments`,
rendered as the "x may come before y" Boolean relation of a stable sort:
descending order of score. -/
noncomputable def descBle (x y : SearchResult) : Bool := decide (y.score ≤ x.score)

/-- `SupabaseRAGService.searchDocuments` on a fetched corpus: embed the query,
score every row, sort by descending score, take the first `topK` results.
The database fetch is modelled by the `docs` argument; the error branches
that return `[]` are not modelled. -/
noncomputable def searchDocuments (docs : List StoredDoc) (query : String)
    (topK : ℕ) : List SearchResult :=
  ((docs.map (scoreDoc (generateEmbedding query))).mergeSort descBle).take topK

/-- `searchDocuments` called without an explicit `topK`, which defaults
to 5 in the source. -/
noncomputable def searchDocumentsDefault (docs : List StoredDoc)
    (query : String) : List SearchResult :=
  searchDocuments docs query 5

/-- JavaScript `String.prototype.includes`: `sub` occurs contiguously in
`s`. -/
def includes (s sub : String) : Bool :=
  (List.range (s.toList.length + 1)).any fun i => sub.toList.isPrefixOf (s.toList.drop i)

/-- The outcome of the `model.generateContent` call inside
`generateResponse`: a successful text, a thrown `Error` carrying a message,
or a thrown value that is not an `Error`. -/
inductive ModelOutcome where
  | ok (text : String)
  | errObj (message : String)
  | errOther

/-- The canned reply for an error message containing `API_KEY`. -/
def invalidKeyText : String :=
  "Error: Invalid API key. Please check your Gemini API configuration."

/-- The canned reply for an error message containing `quota`. -/
def quotaText : String := "Error: API quota exceeded. Please try again later."

/-- The canned reply for an error message containing `SAFETY`. -/
def safetyText : String :=
  "The content was blocked for safety reasons. Please try rephrasing your question."

/-- The fallback apology built from the error message:
`I apologize, but I encountered an error while generating a response: ${...}. Please try again.` -/
def apologyText (msg : String) : String :=
  "I apologize, but I encountered an error while generating a response: "
    ++ msg ++ ". Please try again."

/-- `SupabaseRAGService.generateResponse` / `RAGService.generateResponse`:
returns the model's text on success; on failure, picks the reply by substring
matching on the error message, trying `API_KEY`, then `quota`, then `SAFETY`,
and otherwise apologises with the message embedded (`Unknown error` when the
thrown value is not an `Error`).  The `query` and `context` arguments only
shape the prompt sent to the model and do not affect the error handling. -/
def generateResponse (query context : String) (outcome : ModelOutcome) : String :=
  match outcome with
  | .ok t => t
  | .errObj msg =>
    if includes msg ("API_KEY") then invalidKeyText
    else if includes msg ("quota") then quotaText
    else if includes msg ("SAFETY") then safetyText
    else apologyText msg
  | .errOther => apologyText ("Unknown error")

/-- The result of `processQuery`: `{ response, sources }`. -/
structure QueryResult where
  response : String
  sources : List SearchResult

/-- The fixed reply of `processQuery` when the search returns no results. -/
def noDocsResponse : String :=
  "I don't have any relevant documents to answer your question. Please upload some documents first."

/-- The context built by `processQuery`:
`sources.slice(0, 3).map(source => source.content).join('\n\n')`. -/
def buildContext (sources : List SearchResult) : String :=
  String.intercalate ("\n\n") ((sources.take 3).map SearchResult.content)

/-- `SupabaseRAGService.processQuery` / `RAGService.processQuery`: search with
the default `topK`, answer with the fixed no-documents reply when the search
is empty, and otherwise generate a response from the joined top-3 context.
The model call's outcome is passed in as `outcome`; chat-message persistence
and logging are not modelled. -/
noncomputable def processQuery (outcome : ModelOutcome) (docs : List StoredDoc)
    (query : String) : QueryResult :=
  let sources := searchDocuments docs query 5
  if sources.length = 0 then { response := noDocsResponse, sources := [] }
  else { response := generateResponse query (buildContext sources) outcome
         sources := sources }

/-- The argument of `SupabaseRAGService.storeDocument`:
`Omit<Document, 'id' | 'upload_date'>`. -/
structure DocumentInput where
  title : String
  content : String
  file_path : String
  file_type : String

/-- The row inserted into the `documents` table by `storeDocument`. -/
structure InsertRow where
  title : String
  content : String
  file_path : String
  file_type : String
  embedding : List ℝ
  upload_date : String

/-- `SupabaseRAGService.storeDocument`: embeds the document's content and
inserts a row carrying the input fields unchanged plus the embedding and the
current time (`now`, passed in since the clock is an effect). -/
noncomputable def storeDocument (now : String) (d : DocumentInput) : InsertRow :=
  { title := d.title
    content := d.content
    file_path := d.file_path
    file_type := d.file_type
    embedding := generateEmbedding d.content
    upload_date := now }

lemma descBle_trans : ∀ a b c : SearchResult, descBle a b → descBle b c → descBle a c := by
  intro a b c hab hbc
  simp only [descBle, decide_eq_true_eq] at *
  exact le_trans hbc hab

lemma descBle_total : ∀ a b : SearchResult, descBle a b || descBle b a := by
  intro a b
  simp only [descBle, Bool.or_eq_true, decide_eq_true_eq]
  exact le_total b.score a.score

/-- C2: `searchDocuments` scores every stored document against the query's
pseudo-embedding (a full scan), sorts the scored results in descending order
of score, and returns the first `topK`, with `topK` defaulting to 5. -/
theorem C2_searchDocuments_spec (docs : List StoredDoc) (query : String) (topK : ℕ) :
    ∃ l : List SearchResult,
      l.Perm (docs.map (scoreDoc (generateEmbedding query))) ∧
      List.Pairwise (fun x y => y.score ≤ x.score) l ∧
      searchDocuments docs query topK = l.take topK ∧
      List.Pairwise (fun x y => y.score ≤ x.score) (searchDocuments docs query topK) ∧
      searchDocumentsDefault docs query = searchDocuments docs query 5 := by
  refine ⟨(docs.map (scoreDoc (generateEmbedding query))).mergeSort descBle,
    List.mergeSort_perm _ _, ?_, rfl, ?_, rfl⟩
  · exact (List.sorted_mergeSort descBle_trans descBle_total _).imp
      fun h => by simpa [descBle, decide_eq_true_eq] using h
  · exact List.Pairwise.sublist (List.take_sublist _ _)
      ((List.sorted_mergeSort descBle_trans descBle_total _).imp
        fun h => by simpa [descBle, decide_eq_true_eq] using h)

/-- C4: when the search returns a non-empty list, `processQuery` builds the
generation context by joining the content of the first up-to-3 search results
with a blank line, in the order the search returned them, and passes the full
result list through as sources. -/
theorem C4_processQuery_context (outcome : ModelOutcome) (docs : List StoredDoc)
    (query : String) (h : searchDocuments docs query 5 ≠ []) :
    processQuery outcome docs query =
      { response := generateResponse query
          (String.intercalate ("\n\n")
            (((searchDocuments docs query 5).take 3).map SearchResult.content)) outcome
        sources := searchDocuments docs query 5 } := by
  unfold processQuery
  rw [if_neg (by simpa [List.length_eq_zero] using h)]
  rfl

/-- A concrete document row used to instantiate theorems with hypotheses. -/
def sampleDoc : StoredDoc :=
  { id := "d1", title := "t", content := "c", file_path := "p", file_type := "txt"
    upload_date := "now", embedding := none }

/-- C4 witness: the theorem instantiated at a one-document corpus, whose
search result is non-empty. -/
theorem C4_processQuery_context_witness :
    processQuery .errOther [sampleDoc] ("q") =
      { response := generateResponse ("q")
          (String.intercalate ("\n\n")
            (((searchDocuments [sampleDoc] ("q") 5).take 3).map SearchResult.content))
          .errOther
        sources := searchDocuments [sampleDoc] ("q") 5 } :=
  C4_processQuery_context .errOther [sampleDoc] ("q") (by simp [searchDocuments])

/-- C5: `generateResponse` is a total function of the model call's outcome;
on success it returns the model text; on a thrown `Error` it selects the
reply by substring matching on the message, trying `API_KEY` first, then
`quota`, then `SAFETY`, and otherwise falls back to an apology that embeds
the message; a thrown non-`Error` yields the apology with `Unknown error`. -/
theorem C5_generateResponse_spec (query context t msg : String) :
    generateResponse query context (.ok t) = t ∧
    generateResponse query context (.errObj msg) =
      (if includes msg ("API_KEY") then invalidKeyText
       else if includes msg ("quota") then quotaText
       else if includes msg ("SAFETY") then safetyText
       else apologyText msg) ∧
    (includes msg ("API_KEY") = true →
      generateResponse query context (.errObj msg) = invalidKeyText) ∧
    (includes msg ("API_KEY") = false → includes msg ("quota") = true →
      generateResponse query context (.errObj msg) = quotaText) ∧
    (includes msg ("API_KEY") = false → includes msg ("quota") = false →
      includes msg ("SAFETY") = true →
      generateResponse query context (.errObj msg) = safetyText) ∧
    (includes msg ("API_KEY") = false → includes msg ("quota") = false →
      includes msg ("SAFETY") = false →
      generateResponse query context (.errObj msg) = apologyText msg) ∧
    generateResponse query context .errOther = apologyText ("Unknown error") := by
  refine ⟨rfl, rfl, ?_, ?_, ?_, ?_, rfl⟩
  · intro h1
    simp [generateResponse, h1]
  · intro h1 h2
    simp [generateResponse, h1, h2]
  · intro h1 h2 h3
    simp [generateResponse, h1, h2, h3]
  · intro h1 h2 h3
    simp [generateResponse, h1, h2, h3]

/-- C5 witness: a message containing both `API_KEY` and `quota` is answered
with the invalid-API-key text, because `API_KEY` is checked first. -/
theorem C5_generateResponse_spec_witness :
    includes ("API_KEY quota SAFETY") ("API_KEY") = true ∧
    generateResponse ("") ("") (.errObj ("API_KEY quota SAFETY")) = invalidKeyText :=
  ⟨by decide, (C5_generateResponse_spec ("") ("") ("") ("API_KEY quota SAFETY")).2.2.1
    (by decide)⟩

/-- C6: `storeDocument` writes a row whose embedding is the pseudo-embedding
of the document's own content and whose title, content, file_path and
file_type fields are the input's, unchanged. -/
theorem C6_storeDocument_spec (now : String) (d : DocumentInput) :
    (storeDocument now d).embedding = generateEmbedding d.content ∧
    (storeDocument now d).title = d.title ∧
    (storeDocument now d).content = d.content ∧
    (storeDocument now d).file_path = d.file_path ∧
    (storeDocument now d).file_type = d.file_type :=
  ⟨rfl, rfl, rfl, rfl, rfl⟩

/-- C9: when the search returns no results, `processQuery` answers with the
fixed no-documents string and an empty sources list, and its result does not
depend on the generation model's outcome, which is therefore never consulted. -/
theorem C9_processQuery_empty (outcome : ModelOutcome) (docs : List StoredDoc)
    (query : String) (h : searchDocuments docs query 5 = []) :
    processQuery outcome docs query = { response := noDocsResponse, sources := [] } ∧
    noDocsResponse =
      "I don't have any relevant documents to answer your question. Please upload some documents first." ∧
    ∀ o₁ o₂ : ModelOutcome, processQuery o₁ docs query = processQuery o₂ docs query := by
  have hlen : (searchDocuments docs query 5).length = 0 := by rw [h]; rfl
  refine ⟨?_, rfl, ?_⟩
  · unfold processQuery
    rw [if_pos hlen]
  · intro o₁ o₂
    unfold processQuery
    rw [if_pos hlen, if_pos hlen]

/-- C9 witness: the theorem instantiated at the empty corpus, where the
search is empty and the result ignores the model outcome. -/
theorem C9_processQuery_empty_witness :
    processQuery .errOther [] ("") = { response := noDocsResponse, sources := [] } ∧
    processQuery (.ok ("x")) [] ("") = processQuery .errOther [] ("") :=
  ⟨(C9_processQuery_empty .errOther [] ("") (by simp [searchDocuments])).1,
    (C9_processQuery_empty .errOther [] ("") (by simp [searchDocuments])).2.2
      (.ok ("x")) .errOther⟩

end RagApp

namespace TodoPage

/-- The `Todo` interface of the todo page. -/
structure Todo where
  id : String
  title : String
  description : Option String
  completed : Bool
  priority : String
  due_date : Option String
  created_at : String
deriving DecidableEq

/-- The todo page's `deleteTodo` handler, acting on the client todo-list
state: when the remote delete succeeds it runs
`setTodos(prev => prev.filter(todo => todo.id !== id))`; when it fails the
catch branch only raises a toast and the list is left unchanged. -/
def deleteTodo (todos : List Todo) (id : String) (success : Bool) : List Todo :=
  if success then todos.filter fun t => t.id ≠ id else todos

/-- C7: a successful `deleteTodo(id)` removes every todo carrying the given
id and nothing else: no todo with that id remains, the surviving todos are a
sublist of the original list (same records, same relative order), every todo
whose id differs keeps its exact multiplicity, and a failed delete leaves the
list unchanged. -/
theorem C7_deleteTodo_frame (todos : List Todo) (id : String) :
    (∀ t ∈ deleteTodo todos id true, t.id ≠ id) ∧
    (deleteTodo todos id true).Sublist todos ∧
    (∀ t : Todo, t.id ≠ id → (deleteTodo todos id true).count t = todos.count t) ∧
    deleteTodo todos id false = todos := by
  refine ⟨?_, ?_, ?_, rfl⟩
  · intro t ht
    simp only [deleteTodo, if_true, List.mem_filter, decide_eq_true_eq] at ht
    exact ht.2
  · simp only [deleteTodo, if_true]
    exact List.filter_sublist todos
  · intro t ht
    simp only [deleteTodo, if_true]
    exact List.count_filter (by simpa using ht)

/-- A concrete todo record with id `a`, for witnesses. -/
def sampleTodoA : Todo :=
  { id := "a", title := "first", description := none, completed := false
    priority := "medium", due_date := none, created_at := "2025-01-01" }

/-- A concrete todo record with id `b`, for witnesses. -/
def sampleTodoB : Todo :=
  { id := "b", title := "second", description := none, completed := true
    priority := "low", due_date := none, created_at := "2025-01-02" }

/-- C7 witness: deleting id `a` from a two-todo list keeps the todo with
id `b` at its original multiplicity and leaves the list unchanged on
failure. -/
theorem C7_deleteTodo_frame_witness :
    (deleteTodo [sampleTodoA, sampleTodoB] ("a") true).count sampleTodoB =
      [sampleTodoA, sampleTodoB].count sampleTodoB ∧
    deleteTodo [sampleTodoA, sampleTodoB] ("a") false = [sampleTodoA, sampleTodoB] :=
  ⟨(C7_deleteTodo_frame [sampleTodoA, sampleTodoB] ("a")).2.2.1 sampleTodoB (by decide),
    (C7_deleteTodo_frame [sampleTodoA, sampleTodoB] ("a")).2.2.2⟩

end TodoPage

namespace BrowserStore

/-- An entry of `BrowserVectorStore.documents`:
`{ id, content, embedding, metadata }` with metadata of arbitrary type. -/
structure VSDoc (μ : Type) where
  id : String
  content : String
  embedding : List ℝ
  metadata : μ

/-- `BrowserVectorStore.store`: removes any existing document with the same
id, then appends the new document.  The localStorage write is a persistence
side effect and is not modelled. -/
def store {μ : Type} (docs : List (VSDoc μ)) (id content : String)
    (embedding : List ℝ) (m : μ) : List (VSDoc μ) :=
  (docs.filter fun d => d.id ≠ id) ++ [⟨id, content, embedding, m⟩]

/-- The data of one `store` call, for reasoning about sequences of calls. -/
structure StoreOp (μ : Type) where
  id : String
  content : String
  embedding : List ℝ
  metadata : μ

/-- A sequence of `store` calls applied in order to an initial store state. -/
def applyStores {μ : Type} (docs : List (VSDoc μ)) (ops : List (StoreOp μ)) :
    List (VSDoc μ) :=
  ops.foldl (fun acc op => store acc op.id op.content op.embedding op.metadata) docs

lemma map_id_filter_ne {μ : Type} (docs : List (VSDoc μ)) (id : String) :
    (docs.filter fun d => d.id ≠ id).map VSDoc.id =
      (docs.map VSDoc.id).filter fun x => x ≠ id := by
  rw [List.filter_map]
  rfl

lemma map_id_store {μ : Type} (docs : List (VSDoc μ)) (id content : String)
    (embedding : List ℝ) (m : μ) :
    (store docs id content embedding m).map VSDoc.id =
      ((docs.map VSDoc.id).filter fun x => x ≠ id) ++ [id] := by
  unfold store
  rw [List.map_append, map_id_filter_ne]
  rfl

lemma nodup_id_store {μ : Type} {docs : List (VSDoc μ)} (id content : String)
    (embedding : List ℝ) (m : μ) (h : (docs.map VSDoc.id).Nodup) :
    ((store docs id content embedding m).map VSDoc.id).Nodup := by
  rw [map_id_store]
  refine List.Nodup.append (h.filter _) (List.nodup_singleton id) ?_
  intro a ha hb
  rw [List.mem_singleton] at hb
  subst hb
  have := List.of_mem_filter ha
  simp at this

lemma nodup_id_applyStores {μ : Type} (ops : List (StoreOp μ)) :
    ∀ docs : List (VSDoc μ), (docs.map VSDoc.id).Nodup →
      ((applyStores docs ops).map VSDoc.id).Nodup := by
  induction ops with
  | nil => intro docs h; exact h
  | cons op ops ih =>
    intro docs h
    exact ih _ (nodup_id_store op.id op.content op.embedding op.metadata h)

/-- C8: `BrowserVectorStore.store` keeps document ids unique: after a store,
exactly the newly stored document carries the stored id (any earlier document
with that id was filtered out first), a store preserves the no-duplicate-ids
invariant, and so does every sequence of stores. -/
theorem C8_store_unique_ids {μ : Type} (docs : List (VSDoc μ)) (id content : String)
    (embedding : List ℝ) (m : μ) :
    ((store docs id content embedding m).filter fun d => d.id = id) =
      [{ id := id, content := content, embedding := embedding, metadata := m }] ∧
    ((docs.map VSDoc.id).Nodup →
      ((store docs id content embedding m).map VSDoc.id).Nodup) ∧
    (∀ ops : List (StoreOp μ), (docs.map VSDoc.id).Nodup →
      ((applyStores docs ops).map VSDoc.id).Nodup) := by
  refine ⟨?_, nodup_id_store id content embedding m, fun ops => nodup_id_applyStores ops docs⟩
  unfold store
  rw [List.filter_append]
  have h1 : ((docs.filter fun d => d.id ≠ id).filter fun d => d.id = id) = [] := by
    rw [List.filter_eq_nil_iff]
    intro a ha
    have := List.of_mem_filter ha
    simp at this
    simp [this]
  rw [h1]
  simp

/-- A concrete store operation, for the C8 witness. -/
def sampleOp : StoreOp Unit :=
  { id := "doc1", content := "hello", embedding := [], metadata := () }

/-- C8 witness: the theorem instantiated at the empty store, whose id list is
trivially duplicate-free. -/
theorem C8_store_unique_ids_witness :
    ((store ([] : List (VSDoc Unit)) ("doc1") ("hello") [] ()).filter
        fun d => d.id = "doc1") =
      [{ id := "doc1", content := "hello", embedding := [], metadata := () }] ∧
    ((store ([] : List (VSDoc Unit)) ("doc1") ("hello") [] ()).map VSDoc.id).Nodup ∧
    ((applyStores ([] : List (VSDoc Unit)) [sampleOp]).map VSDoc.id).Nodup :=
  ⟨(C8_store_unique_ids [] ("doc1") ("hello") [] ()).1,
    (C8_store_unique_ids [] ("doc1") ("hello") [] ()).2.1 (by simp),
    (C8_store_unique_ids [] ("doc1") ("hello") [] ()).2.2 [sampleOp] (by simp)⟩

end BrowserStore

namespace RagApp

lemma sumSq_cons (x : ℝ) (xs : List ℝ) : sumSq (x :: xs) = x * x + sumSq xs := by
  simp [sumSq]

lemma sumSq_nonneg (a : List ℝ) : 0 ≤ sumSq a := by
  induction a with
  | nil => simp [sumSq]
  | cons x xs ih => rw [sumSq_cons]; exact add_nonneg (mul_self_nonneg x) ih

lemma dotProduct_nil_left (b : List ℝ) : dotProduct [] b = 0 := rfl

lemma dotProduct_nil_right (a : List ℝ) : dotProduct a [] = 0 := by
  simp [dotProduct]

lemma dotProduct_cons (x y : ℝ) (xs ys : List ℝ) :
    dotProduct (x :: xs) (y :: ys) = x * y + dotProduct xs ys := by
  simp [dotProduct]

lemma dotProduct_comm (a b : List ℝ) : dotProduct a b = dotProduct b a := by
  induction a generalizing b with
  | nil => rw [dotProduct_nil_left, dotProduct_nil_right]
  | cons x xs ih =>
    cases b with
    | nil => rw [dotProduct_nil_left, dotProduct_nil_right]
    | cons y ys => rw [dotProduct_cons, dotProduct_cons, ih, mul_comm]

lemma dotProduct_self (a : List ℝ) : dotProduct a a = sumSq a := by
  induction a with
  | nil => rfl
  | cons x xs ih => rw [dotProduct_cons, sumSq_cons, ih]

lemma eq_zero_of_sumSq_eq_zero {a : List ℝ} (h : sumSq a = 0) : ∀ x ∈ a, x = 0 := by
  induction a with
  | nil => intro x hx; cases hx
  | cons y ys ih =>
    rw [sumSq_cons] at h
    have h1 : y * y = 0 := le_antisymm (by nlinarith [sumSq_nonneg ys]) (mul_self_nonneg y)
    have h2 : sumSq ys = 0 := by nlinarith [mul_self_nonneg y, sumSq_nonneg ys]
    intro x hx
    rcases List.mem_cons.mp hx with rfl | hx
    · exact mul_self_eq_zero.mp h1
    · exact ih h2 x hx

lemma dotProduct_eq_zero_left {a : List ℝ} (b : List ℝ) (h : ∀ x ∈ a, x = 0) :
    dotProduct a b = 0 := by
  induction a generalizing b with
  | nil => rfl
  | cons x xs ih =>
    cases b with
    | nil => rw [dotProduct_nil_right]
    | cons y ys =>
      rw [dotProduct_cons, h x (List.mem_cons_self x xs),
        ih ys fun z hz => h z (List.mem_cons_of_mem x hz)]
      ring

lemma dotProduct_eq_finsum (a b : List ℝ) (h : a.length = b.length) :
    dotProduct a b = ∑ i ∈ Finset.range a.length, a.getD i 0 * b.getD i 0 := by
  induction a generalizing b with
  | nil => simp [dotProduct_nil_left]
  | cons x xs ih =>
    cases b with
    | nil => cases h
    | cons y ys =>
      rw [dotProduct_cons, List.length_cons, Finset.sum_range_succ']
      simp only [List.getD_cons_succ, List.getD_cons_zero]
      rw [← ih ys (by simpa using h), add_comm]

lemma sumSq_eq_finsum (a : List ℝ) :
    sumSq a = ∑ i ∈ Finset.range a.length, a.getD i 0 ^ 2 := by
  induction a with
  | nil => simp [sumSq]
  | cons x xs ih =>
    rw [sumSq_cons, List.length_cons, Finset.sum_range_succ']
    simp only [List.getD_cons_succ, List.getD_cons_zero]
    rw [← ih, add_comm, sq]

lemma dotProduct_le_magnitude_mul_magnitude (a b : List ℝ) (h : a.length = b.length) :
    dotProduct a b ≤ magnitude a * magnitude b := by
  rw [dotProduct_eq_finsum a b h, magnitude, magnitude, sumSq_eq_finsum, sumSq_eq_finsum, h]
  exact Real.sum_mul_le_sqrt_mul_sqrt _ _ _

lemma cosineSimilarityBrowser_le_self (a b : List ℝ) (h : a.length = b.length) :
    cosineSimilarityBrowser a b ≤ cosineSimilarityBrowser a a := by
  unfold cosineSimilarityBrowser
  rcases eq_or_lt_of_le (sumSq_nonneg a) with hSa | hSa
  · have hz : ∀ x ∈ a, x = 0 := eq_zero_of_sumSq_eq_zero hSa.symm
    rw [dotProduct_eq_zero_left b hz, dotProduct_eq_zero_left a hz]
    simp
  · have hself : dotProduct a a / (magnitude a * magnitude a) = 1 := by
      rw [dotProduct_self, magnitude, Real.mul_self_sqrt (sumSq_nonneg a),
        div_self (ne_of_gt hSa)]
    rw [hself]
    rcases eq_or_lt_of_le (sumSq_nonneg b) with hSb | hSb
    · have hzb : ∀ x ∈ b, x = 0 := eq_zero_of_sumSq_eq_zero hSb.symm
      rw [dotProduct_comm, dotProduct_eq_zero_left a hzb]
      simp
    · have hmagA : 0 < magnitude a := Real.sqrt_pos.mpr hSa
      have hmagB : 0 < magnitude b := Real.sqrt_pos.mpr hSb
      rw [div_le_one (by positivity)]
      exact dotProduct_le_magnitude_mul_magnitude a b h

lemma cosineSimilarityBrowser_comm (a b : List ℝ) :
    cosineSimilarityBrowser a b = cosineSimilarityBrowser b a := by
  unfold cosineSimilarityBrowser
  rw [dotProduct_comm, mul_comm]

lemma cosineSimilarity_eq_browser (a b : List ℝ) (ha : a.length ≠ 0)
    (hb : b.length ≠ 0) : cosineSimilarity a b = cosineSimilarityBrowser a b := by
  unfold cosineSimilarity cosineSimilarityBrowser
  rw [if_neg]
  rintro (h | h) <;> [exact ha h; exact hb h]

lemma cosineSimilarity_comm (a b : List ℝ) :
    cosineSimilarity a b = cosineSimilarity b a := by
  unfold cosineSimilarity
  by_cases h : a.length = 0 ∨ b.length = 0
  · rw [if_pos h, if_pos (Or.symm h)]
  · rw [if_neg h, if_neg fun hc => h (Or.symm hc), dotProduct_comm, mul_comm]

lemma cosineSimilarity_le_self (a b : List ℝ) (h : a.length = b.length) :
    cosineSimilarity a b ≤ cosineSimilarity a a := by
  by_cases ha : a.length = 0
  · unfold cosineSimilarity
    rw [if_pos (Or.inl ha), if_pos (Or.inl ha)]
  · have hb : b.length ≠ 0 := by omega
    rw [cosineSimilarity_eq_browser a b ha hb, cosineSimilarity_eq_browser a a ha ha]
    exact cosineSimilarityBrowser_le_self a b h

/-- C3: for every pair of vectors of equal dimension, cosine similarity is
symmetric and self-similarity is maximal, for both the guarded
(`SupabaseRAGService`) and the unguarded (`BrowserVectorStore`)
implementation, over the real-number model of JavaScript arithmetic. -/
theorem C3_cosine_symm_and_self_max (a b : List ℝ) (h : a.length = b.length) :
    (cosineSimilarity a b = cosineSimilarity b a ∧
      cosineSimilarity a b ≤ cosineSimilarity a a) ∧
    (cosineSimilarityBrowser a b = cosineSimilarityBrowser b a ∧
      cosineSimilarityBrowser a b ≤ cosineSimilarityBrowser a a) :=
  ⟨⟨cosineSimilarity_comm a b, cosineSimilarity_le_self a b h⟩,
    ⟨cosineSimilarityBrowser_comm a b, cosineSimilarityBrowser_le_self a b h⟩⟩

/-- C1: `generateEmbedding` returns exactly 384 numbers; the i-th entry is
`sin(h * (i + 1)) * cos(h * (i + 2))` where `h` is the absolute value of the
rolling 32-bit character-code hash divided by 1000000; the rolling hash is the
fold of `hash = ToInt32(ToInt32(hash << 5) - hash + charCode)` over the
character codes starting from 0; and the embedding is deterministic. -/
theorem C1_generateEmbedding_spec (s : String) :
    (generateEmbedding s).length = 384 ∧
    simpleHash s = ((rawHash s).natAbs : ℝ) / 1000000 ∧
    rawHash s =
      (charCodes s).foldl (fun (h : ℤ) (c : ℕ) => toInt32 (toInt32 (h * 32) - h + (c : ℤ))) 0 ∧
    (∀ i : ℕ, i < 384 → (generateEmbedding s).getD i 0 =
      Real.sin (simpleHash s * ((i : ℝ) + 1)) * Real.cos (simpleHash s * ((i : ℝ) + 2))) ∧
    (∀ t : String, t = s → generateEmbedding t = generateEmbedding s) := by
  refine ⟨by simp [generateEmbedding], rfl, rfl, ?_, ?_⟩
  · intro i hi
    have hlen : i < (generateEmbedding s).length := by
      simpa [generateEmbedding] using hi
    rw [List.getD_eq_getElem _ _ hlen]
    simp [generateEmbedding]
  · intro t ht
    rw [ht]

/-- C1 witness: the theorem instantiated at the string `"a"` and index 0. -/
theorem C1_generateEmbedding_spec_witness :
    (generateEmbedding ("a")).length = 384 ∧
    (generateEmbedding ("a")).getD 0 0 =
      Real.sin (simpleHash ("a") * (((0 : ℕ) : ℝ) + 1)) *
        Real.cos (simpleHash ("a") * (((0 : ℕ) : ℝ) + 2)) ∧
    generateEmbedding ("a") = generateEmbedding ("a") :=
  ⟨(C1_generateEmbedding_spec ("a")).1,
    (C1_generateEmbedding_spec ("a")).2.2.2.1 0 (by decide),
    (C1_generateEmbedding_spec ("a")).2.2.2.2 ("a") rfl⟩

/-- C3 witness: the theorem instantiated at the concrete one-dimensional
vectors `[1]` and `[2]`. -/
theorem C3_cosine_symm_and_self_max_witness :
    ([(1 : ℝ)].length = [(2 : ℝ)].length) ∧
    ((cosineSimilarity [(1 : ℝ)] [(2 : ℝ)] = cosineSimilarity [(2 : ℝ)] [(1 : ℝ)] ∧
        cosineSimilarity [(1 : ℝ)] [(2 : ℝ)] ≤ cosineSimilarity [(1 : ℝ)] [(1 : ℝ)]) ∧
      (cosineSimilarityBrowser [(1 : ℝ)] [(2 : ℝ)] =
          cosineSimilarityBrowser [(2 : ℝ)] [(1 : ℝ)] ∧
        cosineSimilarityBrowser [(1 : ℝ)] [(2 : ℝ)] ≤
          cosineSimilarityBrowser [(1 : ℝ)] [(1 : ℝ)])) :=
  ⟨rfl, C3_cosine_symm_and_self_max [(1 : ℝ)] [(2 : ℝ)] rfl⟩

end RagApp

namespace RagApp

lemma dotProduct_replicate_zero (l : List ℝ) (k : ℕ) :
    dotProduct l (List.replicate k 0) = 0 := by
  induction l generalizing k with
  | nil => rfl
  | cons x xs ih =>
    cases k with
    | zero => rw [List.replicate_zero, dotProduct_nil_right]
    | succ n =>
      rw [List.replicate_succ, dotProduct_cons, ih n]
      ring

lemma dotProduct_append_zeros (a b : List ℝ) (k : ℕ) :
    dotProduct a (b ++ List.replicate k 0) = dotProduct a b := by
  induction a generalizing b with
  | nil => rfl
  | cons x xs ih =>
    cases b with
    | nil =>
      rw [List.nil_append, dotProduct_replicate_zero, dotProduct_nil_right]
    | cons y ys =>
      rw [List.cons_append, dotProduct_cons, dotProduct_cons, ih ys]

lemma sumSq_replicate_zero (k : ℕ) : sumSq (List.replicate k 0) = 0 := by
  induction k with
  | zero => rfl
  | succ n ih =>
    rw [List.replicate_succ, sumSq_cons, ih]
    ring

lemma sumSq_append_zeros (b : List ℝ) (k : ℕ) :
    sumSq (b ++ List.replicate k 0) = sumSq b := by
  induction b with
  | nil => rw [List.nil_append, sumSq_replicate_zero]; rfl
  | cons y ys ih => rw [List.cons_append, sumSq_cons, sumSq_cons, ih]

lemma cosineSimilarity_append_zeros (a b : List ℝ) (k : ℕ) :
    cosineSimilarity a (b ++ List.replicate k 0) = cosineSimilarity a b := by
  unfold cosineSimilarity
  by_cases ha : a.length = 0
  · rw [if_pos (Or.inl ha), if_pos (Or.inl ha)]
  · by_cases hb : b.length = 0
    · rw [if_pos (Or.inr hb)]
      have hb' : b = [] := List.length_eq_zero.mp hb
      subst hb'
      by_cases hk : ([] ++ List.replicate k (0 : ℝ)).length = 0
      · rw [if_pos (Or.inr hk)]
      · rw [if_neg (by tauto), List.nil_append, dotProduct_replicate_zero, zero_div]
    · by_cases hk : (b ++ List.replicate k (0 : ℝ)).length = 0
      · exfalso
        rw [List.length_append] at hk
        omega
      · rw [if_neg (by tauto), if_neg (by tauto), dotProduct_append_zeros]
        simp only [magnitude]
        rw [sumSq_append_zeros]

/-- C10: the Supabase scoring is total on degenerate inputs: cosine
similarity is exactly 0 when either vector is empty; components missing from
a shorter second vector act as zeros (padding the second vector with zeros
does not change the score); and a stored document whose embedding column is
null or the empty list receives a score of exactly 0 from the scoring step of
`searchDocuments`. -/
theorem C10_cosine_degenerate_total (a b : List ℝ) (query : String) (doc : StoredDoc) :
    cosineSimilarity [] b = 0 ∧
    cosineSimilarity a [] = 0 ∧
    cosineSimilarity a (b ++ List.replicate (a.length - b.length) 0) =
      cosineSimilarity a b ∧
    (doc.embedding = none ∨ doc.embedding = some [] →
      (scoreDoc (generateEmbedding query) doc).score = 0) := by
  refine ⟨?_, ?_, cosineSimilarity_append_zeros a b (a.length - b.length), ?_⟩
  · unfold cosineSimilarity
    rw [if_pos (Or.inl List.length_nil)]
  · unfold cosineSimilarity
    rw [if_pos (Or.inr List.length_nil)]
  · intro h
    have hemb : doc.embedding.getD [] = [] := by
      rcases h with h | h <;> rw [h] <;> rfl
    show cosineSimilarity (generateEmbedding query) (doc.embedding.getD []) = 0
    rw [hemb]
    unfold cosineSimilarity
    rw [if_pos (Or.inr List.length_nil)]

/-- C10 witness: the theorem instantiated at concrete vectors and at a
document row whose embedding column is null. -/
theorem C10_cosine_degenerate_total_witness :
    cosineSimilarity [] [(2 : ℝ)] = 0 ∧
    cosineSimilarity [(1 : ℝ)] [] = 0 ∧
    cosineSimilarity [(1 : ℝ)]
        (([] : List ℝ) ++ List.replicate ([(1 : ℝ)].length - ([] : List ℝ).length) 0) =
      cosineSimilarity [(1 : ℝ)] ([] : List ℝ) ∧
    (scoreDoc (generateEmbedding ("q")) sampleDoc).score = 0 :=
  ⟨(C10_cosine_degenerate_total [(1 : ℝ)] [(2 : ℝ)] ("q") sampleDoc).1,
    (C10_cosine_degenerate_total [(1 : ℝ)] [] ("q") sampleDoc).2.1,
    (C10_cosine_degenerate_total [(1 : ℝ)] [] ("q") sampleDoc).2.2.1,
    (C10_cosine_degenerate_total [(1 : ℝ)] [] ("q") sampleDoc).2.2.2 (Or.inl rfl)⟩

end RagApp
